import Mathlib

/-!
Shallow embedding of the matchmaking and call-negotiation logic of the
video-chat client: the waiting-queue matchmaker in `ChatInterface`
(`findMatch`, `stopSearching`, `endChat`), the login flow in `HomePage`
(`handleLogin`), and the WebRTC negotiation code in `VideoCall`
(`initializeCall`, `setupSignalingChannel`, `sendSignalingMessage`,
`handleOffer`, `handleAnswer`, `handleIceCandidate`, `endCall`, `cleanup`).

Backend tables (`waiting_queue`, `chat_rooms`, `users`) are lists of rows;
each backend call (`upsert`, `select`, `insert`, `delete`, `update`) is one
atomic step, and concurrency between clients is modelled by interleaving
those steps.  Signaling-message handlers run on the single-threaded event
loop, so each handler body is one atomic transition of the engine state.
-/

namespace VChat

/-- A `waiting_queue` row: `{user_id, username}`. -/
structure Entry where
  user_id : Nat
  username : String
deriving DecidableEq

/-- A `chat_rooms` row:
`{id, user1_id, user2_id, user1_username, user2_username, is_active}`. -/
structure Room where
  id : Nat
  user1_id : Nat
  user2_id : Nat
  user1_username : String
  user2_username : String
  is_active : Bool
deriving DecidableEq

/-- The two backend tables the matchmaker touches. -/
structure DB where
  waiting_queue : List Entry
  chat_rooms : List Room
deriving DecidableEq

/-- `supabase.from("waiting_queue").upsert({user_id, username})`: replaces any
row keyed by the same `user_id`, else inserts a fresh row. -/
def upsertWaiting (db : DB) (u : Nat) (name : String) : DB :=
  { db with waiting_queue :=
      db.waiting_queue.filter (fun e => e.user_id ≠ u) ++ [⟨u, name⟩] }

/-- `supabase.from("waiting_queue").delete().in("user_id", [u1, u2])`:
the queue eviction after a room is created. -/
def deleteBoth (db : DB) (u1 u2 : Nat) : DB :=
  { db with waiting_queue :=
      db.waiting_queue.filter (fun e => e.user_id ≠ u1 ∧ e.user_id ≠ u2) }

/-- `supabase.from("waiting_queue").delete().eq("user_id", u)`: used by
`stopSearching` and by the adopt-existing-room branch.  Deleting zero rows
is not an error for the backend, so this is total. -/
def deleteWaiting (db : DB) (u : Nat) : DB :=
  { db with waiting_queue := db.waiting_queue.filter (fun e => e.user_id ≠ u) }

/-- `supabase.from("chat_rooms").insert({user1_id, user2_id, ..., is_active: true})`. -/
def insertRoom (db : DB) (rid u1 u2 : Nat) (n1 n2 : String) : DB :=
  { db with chat_rooms := db.chat_rooms ++ [⟨rid, u1, u2, n1, n2, true⟩] }

/-- `supabase.from("chat_rooms").select().eq("user2_id", u).eq("is_active", true).single()`:
the no-match branch's check whether the counterpart already created the room. -/
def findRoomAsUser2 (db : DB) (u : Nat) : Option Room :=
  (db.chat_rooms.filter (fun r => r.user2_id = u ∧ r.is_active = true)).head?

/-- `supabase.from("waiting_queue").select().neq("user_id", u).limit(1)`,
with the backend's unspecified row order fixed to list order. -/
def scanQueue (db : DB) (u : Nat) : Option Entry :=
  (db.waiting_queue.filter (fun e => e.user_id ≠ u)).head?

/-- `supabase.from("chat_rooms").update({is_active: false}).eq("id", rid)`
(`endChat`). -/
def deactivateRoom (db : DB) (rid : Nat) : DB :=
  { db with chat_rooms :=
      db.chat_rooms.map (fun r => if r.id = rid then { r with is_active := false } else r) }

/-- Program counter of one participant's in-flight `findMatch` run: which
backend call of the function body is the next to execute. -/
inductive MPhase
  | idle
  | queued
  | matched (e : Entry)
  | roomMade (e : Entry) (rid : Nat)
  | unmatched
  | finished
deriving DecidableEq

/-- Global state of the matchmaking system: the backend plus every
participant's program counter.  `nextRoom` supplies fresh room ids. -/
structure MState where
  db : DB
  phase : Nat → MPhase
  nextRoom : Nat

/-- Pointwise update of the program-counter map. -/
def setPhase (f : Nat → MPhase) (p : Nat) (v : MPhase) : Nat → MPhase :=
  fun q => if q = p then v else f q

/-- One atomic backend call of some participant's `findMatch`,
`stopSearching` or `endChat` run; interleavings of these steps model the
concurrent clients.  The scanned row in `scanHit` is any row satisfying the
`.neq("user_id", p)` filter, since the backend's row order is unspecified.
The `isSearching` flag that gates the retry timer is analysed separately
(`stopSearching`, `retryCallback`); here `retry` may re-enter the function
unconditionally, which only enlarges the set of reachable states. -/
inductive MStep (uname : Nat → String) : MState → MState → Prop
  | upsert (s : MState) (p : Nat) :
      s.phase p = .idle →
      MStep uname s ⟨upsertWaiting s.db p (uname p), setPhase s.phase p .queued, s.nextRoom⟩
  | scanHit (s : MState) (p : Nat) (e : Entry) :
      s.phase p = .queued → e ∈ s.db.waiting_queue → e.user_id ≠ p →
      MStep uname s ⟨s.db, setPhase s.phase p (.matched e), s.nextRoom⟩
  | scanMiss (s : MState) (p : Nat) :
      s.phase p = .queued → scanQueue s.db p = none →
      MStep uname s ⟨s.db, setPhase s.phase p .unmatched, s.nextRoom⟩
  | makeRoom (s : MState) (p : Nat) (e : Entry) :
      s.phase p = .matched e →
      MStep uname s ⟨insertRoom s.db s.nextRoom p e.user_id (uname p) e.username,
        setPhase s.phase p (.roomMade e s.nextRoom), s.nextRoom + 1⟩
  | evictPair (s : MState) (p : Nat) (e : Entry) (rid : Nat) :
      s.phase p = .roomMade e rid →
      MStep uname s ⟨deleteBoth s.db p e.user_id, setPhase s.phase p .finished, s.nextRoom⟩
  | adoptRoom (s : MState) (p : Nat) (r : Room) :
      s.phase p = .unmatched → r ∈ s.db.chat_rooms → r.user2_id = p → r.is_active = true →
      MStep uname s ⟨deleteWaiting s.db p, setPhase s.phase p .finished, s.nextRoom⟩
  | retry (s : MState) (p : Nat) :
      s.phase p = .unmatched →
      MStep uname s ⟨s.db, setPhase s.phase p .idle, s.nextRoom⟩
  | cancel (s : MState) (p : Nat) :
      MStep uname s ⟨deleteWaiting s.db p, s.phase, s.nextRoom⟩
  | deactivate (s : MState) (rid : Nat) :
      MStep uname s ⟨deactivateRoom s.db rid, s.phase, s.nextRoom⟩

/-- Empty backend, everybody idle. -/
def initMState : MState := ⟨⟨[], []⟩, fun _ => .idle, 0⟩

/-- All interleavings of matchmaking steps. -/
def Reaches (uname : Nat → String) : MState → MState → Prop :=
  Relation.ReflTransGen (MStep uname)

/-- Display names for concrete traces (names never influence control flow). -/
def uname0 : Nat → String := fun _ => "anon"

/-- Trace for the pairing race: participants 1 and 2 upsert, both scans run
before either room insert.  Step 1: participant 1 enqueues. -/
def c1s1 : MState :=
  ⟨upsertWaiting initMState.db 1 (uname0 1), setPhase initMState.phase 1 .queued,
    initMState.nextRoom⟩

/-- Step 2: participant 2 enqueues. -/
def c1s2 : MState :=
  ⟨upsertWaiting c1s1.db 2 (uname0 2), setPhase c1s1.phase 2 .queued, c1s1.nextRoom⟩

/-- Step 3: participant 1's scan returns participant 2's row. -/
def c1s3 : MState :=
  ⟨c1s2.db, setPhase c1s2.phase 1 (.matched ⟨2, "anon"⟩), c1s2.nextRoom⟩

/-- Step 4: participant 2's scan returns participant 1's row. -/
def c1s4 : MState :=
  ⟨c1s3.db, setPhase c1s3.phase 2 (.matched ⟨1, "anon"⟩), c1s3.nextRoom⟩

/-- Step 5: participant 1 inserts room 0 pairing (1, 2). -/
def c1s5 : MState :=
  ⟨insertRoom c1s4.db c1s4.nextRoom 1 2 (uname0 1) "anon",
    setPhase c1s4.phase 1 (.roomMade ⟨2, "anon"⟩ c1s4.nextRoom), c1s4.nextRoom + 1⟩

/-- Step 6: participant 2 inserts room 1 pairing (2, 1) — the duplicate. -/
def c1s6 : MState :=
  ⟨insertRoom c1s5.db c1s5.nextRoom 2 1 (uname0 2) "anon",
    setPhase c1s5.phase 2 (.roomMade ⟨1, "anon"⟩ c1s5.nextRoom), c1s5.nextRoom + 1⟩

/-- Trace for pairing a participant who is no longer queued: 1, 2, 3 enqueue;
3 pairs with 1 and evicts both; then 1's stale scan still pairs with 2.
Step 1: participant 1 enqueues. -/
def c5s1 : MState :=
  ⟨upsertWaiting initMState.db 1 (uname0 1), setPhase initMState.phase 1 .queued,
    initMState.nextRoom⟩

/-- Step 2: participant 2 enqueues. -/
def c5s2 : MState :=
  ⟨upsertWaiting c5s1.db 2 (uname0 2), setPhase c5s1.phase 2 .queued, c5s1.nextRoom⟩

/-- Step 3: participant 3 enqueues. -/
def c5s3 : MState :=
  ⟨upsertWaiting c5s2.db 3 (uname0 3), setPhase c5s2.phase 3 .queued, c5s2.nextRoom⟩

/-- Step 4: participant 3's scan returns participant 1's row. -/
def c5s4 : MState :=
  ⟨c5s3.db, setPhase c5s3.phase 3 (.matched ⟨1, "anon"⟩), c5s3.nextRoom⟩

/-- Step 5: participant 3 inserts room 0 pairing (3, 1). -/
def c5s5 : MState :=
  ⟨insertRoom c5s4.db c5s4.nextRoom 3 1 (uname0 3) "anon",
    setPhase c5s4.phase 3 (.roomMade ⟨1, "anon"⟩ c5s4.nextRoom), c5s4.nextRoom + 1⟩

/-- Step 6: participant 3 deletes rows 3 and 1 — participant 1 leaves the pool. -/
def c5s6 : MState :=
  ⟨deleteBoth c5s5.db 3 1, setPhase c5s5.phase 3 .finished, c5s5.nextRoom⟩

/-- Step 7: participant 1's scan (issued after its own eviction) returns
participant 2's row. -/
def c5s7 : MState :=
  ⟨c5s6.db, setPhase c5s6.phase 1 (.matched ⟨2, "anon"⟩), c5s6.nextRoom⟩

/-- Step 8: participant 1 inserts room 1 pairing (1, 2) although participant 1
is no longer in the waiting queue. -/
def c5s8 : MState :=
  ⟨insertRoom c5s7.db c5s7.nextRoom 1 2 (uname0 1) "anon",
    setPhase c5s7.phase 1 (.roomMade ⟨2, "anon"⟩ c5s7.nextRoom), c5s7.nextRoom + 1⟩

/-- Race-free two-participant trace used to instantiate the pairing
invariant.  Step 1: participant 1 enqueues. -/
def c5w1 : MState :=
  ⟨upsertWaiting initMState.db 1 (uname0 1), setPhase initMState.phase 1 .queued,
    initMState.nextRoom⟩

/-- Step 2: participant 2 enqueues. -/
def c5w2 : MState :=
  ⟨upsertWaiting c5w1.db 2 (uname0 2), setPhase c5w1.phase 2 .queued, c5w1.nextRoom⟩

/-- Step 3: participant 1's scan returns participant 2's row. -/
def c5w3 : MState :=
  ⟨c5w2.db, setPhase c5w2.phase 1 (.matched ⟨2, "anon"⟩), c5w2.nextRoom⟩

/-- Step 4: participant 1 inserts room 0 pairing (1, 2). -/
def c5w4 : MState :=
  ⟨insertRoom c5w3.db c5w3.nextRoom 1 2 (uname0 1) "anon",
    setPhase c5w3.phase 1 (.roomMade ⟨2, "anon"⟩ c5w3.nextRoom), c5w3.nextRoom + 1⟩

/-- Which backend call of a single `findMatch` attempt fails, if any;
models a thrown supabase error caught by the surrounding catch block. -/
inductive MatchFault
  | noFault
  | enqueueError
  | searchError
  | roomInsertError
deriving DecidableEq

/-- Outcome of one sequential `findMatch` attempt: the backend afterwards,
the `isSearching` flag, the `chatRoom` state, whether any user-visible error
was raised (the catch block only calls `console.error` and clears the flag —
`ChatInterface` has no error state, so no path raises one), and the delay of
the retry timer scheduled by the no-match branch
(`setTimeout(..., 2000)`), if any. -/
structure AttemptResult where
  db : DB
  searching : Bool
  chatRoom : Option Room
  errorSurfaced : Bool
  retryDelayMs : Option Nat
deriving DecidableEq

/-- One sequential run of `findMatch` for participant `u` (no interleaving;
the interleaved semantics is `MStep`).  Mirrors the source branch for branch:
upsert, scan excluding self, on hit insert the room and evict both rows;
on miss adopt an existing room naming `u` as `user2_id` and evict own row;
otherwise keep searching and schedule a 2000 ms retry.  A thrown backend
error jumps to the catch block: `setIsSearching(false)` and a console log. -/
def findMatchAttempt (db : DB) (u : Nat) (name : String) (fault : MatchFault)
    (rid : Nat) : AttemptResult :=
  if fault = .enqueueError then ⟨db, false, none, false, none⟩
  else
    let db1 := upsertWaiting db u name
    if fault = .searchError then ⟨db1, false, none, false, none⟩
    else
      match scanQueue db1 u with
      | some e =>
          if fault = .roomInsertError then ⟨db1, false, none, false, none⟩
          else
            let db2 := insertRoom db1 rid u e.user_id name e.username
            let db3 := deleteBoth db2 u e.user_id
            ⟨db3, false, some ⟨rid, u, e.user_id, name, e.username, true⟩, false, none⟩
      | none =>
          match findRoomAsUser2 db1 u with
          | some r => ⟨deleteWaiting db1 u, false, some r, false, none⟩
          | none => ⟨db1, true, none, false, some 2000⟩

/-- `stopSearching`: `setIsSearching(false)` and unconditional deletion of the
caller's queue row (a delete matching zero rows is a no-op, not an error). -/
def stopSearching (db : DB) (u : Nat) : DB × Bool :=
  (deleteWaiting db u, false)

/-- The retry timer callback `() => { if (isSearching) findMatch() }`:
re-enters `findMatch` only when the searching flag still holds at fire time. -/
def retryCallback (searching : Bool) (db : DB) (u : Nat) (name : String)
    (fault : MatchFault) (rid : Nat) : Option AttemptResult :=
  match searching with
  | true => some (findMatchAttempt db u name fault rid)
  | false => none

/-- The `connectionStatus` React state of `VideoCall`. -/
inductive Status
  | connecting
  | connected
  | disconnected
deriving DecidableEq

/-- Payload of a broadcast signaling event; sdp and candidate payloads are
opaque to the engine logic and modelled as naturals. -/
inductive SigBody
  | offer (sdp : Nat)
  | answer (sdp : Nat)
  | iceCandidate (candidate : Nat)
deriving DecidableEq

/-- A broadcast message as built by `sendSignalingMessage`: the payload plus
`senderId` and `roomId` stamps. -/
structure SigMessage where
  senderId : Nat
  roomId : Nat
  body : SigBody
deriving DecidableEq

/-- Per-participant negotiation state of `VideoCall`: the peer connection's
remote and local descriptions, the `iceCandidatesQueue` ref, the candidates
handed to `addIceCandidate` in order, the messages sent through
`sendSignalingMessage` in order, and the `connectionStatus` state. -/
structure Engine where
  userId : Nat
  roomId : Nat
  isInitiator : Bool
  remoteDescription : Option Nat
  localDescription : Option Nat
  appliedCandidates : List Nat
  iceCandidatesQueue : List Nat
  published : List SigBody
  connectionStatus : Status
deriving DecidableEq

/-- Engine state right after a successful `initializeCall`: no descriptions,
empty candidate queue, nothing sent, status `connecting`. -/
def initEngine (userId roomId : Nat) (isInitiator : Bool) : Engine :=
  ⟨userId, roomId, isInitiator, none, none, [], [], [], .connecting⟩

/-- `createOffer`: `pc.createOffer()` (external, opaque payload), then
`setLocalDescription` and a broadcast of the offer. -/
def createOffer (e : Engine) : Engine :=
  { e with localDescription := some 0, published := e.published ++ [.offer 0] }

/-- `handleOffer`: `setRemoteDescription(offer)`, drain the queued candidates
front first into `addIceCandidate`, then `createAnswer()` (external, opaque
payload), `setLocalDescription` and a broadcast of the answer.  There is no
phase guard: the body runs whatever the current state. -/
def handleOffer (e : Engine) (offer : Nat) : Engine :=
  let e1 := { e with remoteDescription := some offer }
  let e2 := { e1 with
    appliedCandidates := e1.appliedCandidates ++ e1.iceCandidatesQueue,
    iceCandidatesQueue := [] }
  { e2 with localDescription := some 0, published := e2.published ++ [.answer 0] }

/-- `handleAnswer`: `setRemoteDescription(answer)` then drain the queued
candidates front first into `addIceCandidate`.  No phase guard. -/
def handleAnswer (e : Engine) (answer : Nat) : Engine :=
  let e1 := { e with remoteDescription := some answer }
  { e1 with
    appliedCandidates := e1.appliedCandidates ++ e1.iceCandidatesQueue,
    iceCandidatesQueue := [] }

/-- `handleIceCandidate`: apply immediately when `pc.remoteDescription` is
set, else push onto the `iceCandidatesQueue` ref. -/
def handleIceCandidate (e : Engine) (c : Nat) : Engine :=
  match e.remoteDescription with
  | some _ => { e with appliedCandidates := e.appliedCandidates ++ [c] }
  | none => { e with iceCandidatesQueue := e.iceCandidatesQueue ++ [c] }

/-- The three broadcast handlers registered by `setupSignalingChannel`,
after the `payload.senderId !== userId` filter. -/
def dispatch (e : Engine) (b : SigBody) : Engine :=
  match b with
  | .offer o => handleOffer e o
  | .answer a => handleAnswer e a
  | .iceCandidate c => handleIceCandidate e c

/-- Delivery of one broadcast to the engine.  The supabase channel is named
`webrtc-<roomId>`, so only messages published for the same room reach the
subscription at all; the handlers then drop messages whose `senderId` equals
the engine's own id (`broadcast: { self: true }` makes self-echo real). -/
def deliver (e : Engine) (m : SigMessage) : Engine :=
  if m.roomId = e.roomId then
    if m.senderId ≠ e.userId then dispatch e m.body else e
  else e

/-- `sendSignalingMessage`: stamps every outbound payload with the engine's
own `senderId` and `roomId`. -/
def sendSignalingMessage (e : Engine) (b : SigBody) : SigMessage :=
  ⟨e.userId, e.roomId, b⟩

/-- Run the post-filter handlers over a sequence of delivered payloads. -/
def runEngine (e : Engine) (ms : List SigBody) : Engine :=
  ms.foldl dispatch e

/-- The candidates contained in a payload sequence, in arrival order. -/
def receivedCandidates (ms : List SigBody) : List Nat :=
  ms.filterMap (fun b =>
    match b with
    | .iceCandidate c => some c
    | _ => none)

/-- Result of `initializeCall`: the `connectionStatus` state, whether
`localStreamRef` was set, the engine (present only when the peer connection
and signaling channel were built), and whether the initiator's delayed
`createOffer` timer was scheduled. -/
structure CallInit where
  connectionStatus : Status
  localStreamSet : Bool
  engine : Option Engine
  offerTimerSet : Bool

/-- `initializeCall`: `getUserMedia` runs first inside the try block.  When
capture succeeds the peer connection and signaling channel are built and the
initiator schedules `createOffer` after 2000 ms; when it throws, the catch
block sets `connectionStatus` to `"disconnected"` and nothing downstream —
stream, peer connection, channel, offer timer — ever exists, and the
function is not re-invoked. -/
def initializeCall (captureOk : Bool) (userId roomId : Nat)
    (isInitiator : Bool) : CallInit :=
  match captureOk with
  | true =>
      ⟨.connecting, true, some (initEngine userId roomId isInitiator), isInitiator⟩
  | false => ⟨.disconnected, false, none, false⟩

/-- A whole call attempt: `initializeCall`, then (when initialization
succeeded) the offer timer fires for the initiator and the subscribed
channel delivers the inbox.  Returns the final init record and every
payload the attempt broadcast. -/
def callAttempt (captureOk : Bool) (userId roomId : Nat) (isInitiator : Bool)
    (inbox : List SigMessage) : CallInit × List SigBody :=
  let ci := initializeCall captureOk userId roomId isInitiator
  match ci.engine with
  | none => (ci, [])
  | some e0 =>
      let e1 := if ci.offerTimerSet then createOffer e0 else e0
      let e2 := inbox.foldl deliver e1
      ({ ci with connectionStatus := e2.connectionStatus }, e2.published)

/-- The three resource refs of `VideoCall` plus release counters.  The
source never nulls the refs, so `cleanup` leaves all three flags set. -/
structure CallRefs where
  hasStream : Bool
  hasPc : Bool
  hasChannel : Bool
  trackStops : Nat
  pcCloses : Nat
  channelRemoves : Nat
deriving DecidableEq

/-- `cleanup`: stop every local track, close the peer connection, remove the
signaling channel — each guarded only on the ref being non-null, and no ref
is cleared afterwards. -/
def cleanup (s : CallRefs) : CallRefs :=
  let s1 := if s.hasStream then { s with trackStops := s.trackStops + 1 } else s
  let s2 := if s1.hasPc then { s1 with pcCloses := s1.pcCloses + 1 } else s1
  if s2.hasChannel then { s2 with channelRemoves := s2.channelRemoves + 1 } else s2

/-- `endCall`: runs `cleanup()` and then `onEndCall()`, which flips
`isInVideoCall` off in the parent and unmounts the component. -/
def endCall (s : CallRefs) : CallRefs := cleanup s

/-- The `useEffect` teardown: runs `cleanup()` on unmount. -/
def unmountCleanup (s : CallRefs) : CallRefs := cleanup s

/-- Refs of a fully initialized call, before any teardown. -/
def mountedRefs : CallRefs := ⟨true, true, true, 0, 0, 0⟩

/-- A `users` row: `{id, username, is_online}`. -/
structure UserRec where
  id : Nat
  username : String
  is_online : Bool
deriving DecidableEq

/-- What `handleLogin` leaves behind: either `setCurrentUser` with some id,
or `setError` with a message. -/
inductive LoginOutcome
  | loggedIn (id : Nat)
  | rejected (msg : String)
deriving DecidableEq

/-- `handleLogin`: select the row whose `username` matches (`.single()`,
"not found" tolerated); when a row exists, update it to online and log the
caller in as that record; otherwise insert a new row — an insert failing
with the uniqueness-violation code 23505 (a concurrent insert of the same
name) is surfaced as the rejection message, every other path logs in. -/
def handleLogin (store : List UserRec) (username : String)
    (insertConflict : Bool) (freshId : Nat) : LoginOutcome × List UserRec :=
  match store.find? (fun u => u.username = username) with
  | some u =>
      (.loggedIn u.id,
        store.map (fun v => if v.id = u.id then { v with is_online := true } else v))
  | none =>
      match insertConflict with
      | true =>
          (.rejected "This username is already taken. Please choose another one.", store)
      | false => (.loggedIn freshId, store ++ [⟨freshId, username, true⟩])

/-- Claim C1: the `findMatch` pairing path runs its queue scan and its room
insert as separate backend calls with no serialization, so two participants
racing to pair with each other each create a room: after the interleaving
upsert 1, upsert 2, scan 1 (sees 2), scan 2 (sees 1), insert by 1, insert
by 2, two active rooms exist and participant 1 appears in both —
refuting "the create-Room-and-evict-pair step is a single serialized
operation" and "no participant ever appears in two active Rooms". -/
theorem c1_unserialized_pairing_race :
    Reaches uname0 initMState c1s6
    ∧ c1s6.db.chat_rooms =
        [⟨0, 1, 2, "anon", "anon", true⟩, ⟨1, 2, 1, "anon", "anon", true⟩]
    ∧ (c1s6.db.chat_rooms.filter
        (fun r => r.is_active ∧ (r.user1_id = 1 ∨ r.user2_id = 1))).length = 2 := by
  refine ⟨?_, by decide, by decide⟩
  have h1 : MStep uname0 initMState c1s1 := MStep.upsert initMState 1 rfl
  have h2 : MStep uname0 c1s1 c1s2 := MStep.upsert c1s1 2 (by decide)
  have h3 : MStep uname0 c1s2 c1s3 :=
    MStep.scanHit c1s2 1 ⟨2, "anon"⟩ (by decide) (by decide) (by decide)
  have h4 : MStep uname0 c1s3 c1s4 :=
    MStep.scanHit c1s3 2 ⟨1, "anon"⟩ (by decide) (by decide) (by decide)
  have h5 : MStep uname0 c1s4 c1s5 := MStep.makeRoom c1s4 1 ⟨2, "anon"⟩ (by decide)
  have h6 : MStep uname0 c1s5 c1s6 := MStep.makeRoom c1s5 2 ⟨1, "anon"⟩ (by decide)
  exact .tail (.tail (.tail (.tail (.tail (.single h1) h2) h3) h4) h5) h6

/-- Helper: one payload appends its candidate (if any) to the received list. -/
theorem receivedCandidates_cons (b : SigBody) (bs : List SigBody) :
    receivedCandidates (b :: bs) = receivedCandidates [b] ++ receivedCandidates bs := by
  cases b <;> simp [receivedCandidates]

/-- Helper: one handler run preserves the candidate bookkeeping invariant
(applied and queued candidates concatenate, in order, to all received ones;
nothing is applied before a remote description; the queue is empty once a
remote description exists). -/
theorem dispatch_ice_step (e : Engine) (b : SigBody) (r : List Nat)
    (h1 : e.appliedCandidates ++ e.iceCandidatesQueue = r)
    (h2 : e.remoteDescription = none → e.appliedCandidates = [])
    (h3 : e.remoteDescription ≠ none → e.iceCandidatesQueue = []) :
    ((dispatch e b).appliedCandidates ++ (dispatch e b).iceCandidatesQueue
        = r ++ receivedCandidates [b])
    ∧ ((dispatch e b).remoteDescription = none → (dispatch e b).appliedCandidates = [])
    ∧ ((dispatch e b).remoteDescription ≠ none → (dispatch e b).iceCandidatesQueue = []) := by
  cases b with
  | offer o =>
      refine ⟨?_, ?_, ?_⟩ <;>
        simp [dispatch, handleOffer, receivedCandidates, h1]
  | answer a =>
      refine ⟨?_, ?_, ?_⟩ <;>
        simp [dispatch, handleAnswer, receivedCandidates, h1]
  | iceCandidate c =>
      cases hrd : e.remoteDescription with
      | none =>
          have ha := h2 hrd
          refine ⟨?_, ?_, ?_⟩ <;>
            simp_all [dispatch, handleIceCandidate, receivedCandidates]
      | some v =>
          have hq := h3 (by simp [hrd])
          refine ⟨?_, ?_, ?_⟩ <;>
            simp_all [dispatch, handleIceCandidate, receivedCandidates]

/-- Helper: iterated form of the candidate bookkeeping invariant. -/
theorem runEngine_ice (ms : List SigBody) : ∀ (e : Engine) (r : List Nat),
    e.appliedCandidates ++ e.iceCandidatesQueue = r →
    (e.remoteDescription = none → e.appliedCandidates = []) →
    (e.remoteDescription ≠ none → e.iceCandidatesQueue = []) →
    ((runEngine e ms).appliedCandidates ++ (runEngine e ms).iceCandidatesQueue
        = r ++ receivedCandidates ms)
    ∧ ((runEngine e ms).remoteDescription = none →
        (runEngine e ms).appliedCandidates = [])
    ∧ ((runEngine e ms).remoteDescription ≠ none →
        (runEngine e ms).iceCandidatesQueue = []) := by
  induction ms with
  | nil =>
      intro e r h1 h2 h3
      exact ⟨by simpa [runEngine, receivedCandidates] using h1, h2, h3⟩
  | cons b bs ih =>
      intro e r h1 h2 h3
      obtain ⟨g1, g2, g3⟩ := dispatch_ice_step e b r h1 h2 h3
      have hrun : runEngine e (b :: bs) = runEngine (dispatch e b) bs := rfl
      rw [hrun, receivedCandidates_cons, ← List.append_assoc]
      exact ih (dispatch e b) (r ++ receivedCandidates [b]) g1 g2 g3

/-- Claim C2: starting from a fresh engine, for every sequence of delivered
payloads the applied candidates followed by the still-queued ones are exactly
the received candidates in arrival order; while no remote description is set
nothing has been applied; and the instant a remote description exists the
queue is empty (it was drained, front first, by the Offer/Answer handler).
So candidates are applied immediately exactly when a remote description is
set, queued FIFO otherwise, drained in received order on Offer/Answer, and
never applied before a remote description exists. -/
theorem c2_ice_candidate_ordering (userId roomId : Nat) (isInitiator : Bool)
    (ms : List SigBody) :
    ((runEngine (initEngine userId roomId isInitiator) ms).appliedCandidates
        ++ (runEngine (initEngine userId roomId isInitiator) ms).iceCandidatesQueue
        = receivedCandidates ms)
    ∧ ((runEngine (initEngine userId roomId isInitiator) ms).remoteDescription = none →
        (runEngine (initEngine userId roomId isInitiator) ms).appliedCandidates = [])
    ∧ ((runEngine (initEngine userId roomId isInitiator) ms).remoteDescription ≠ none →
        (runEngine (initEngine userId roomId isInitiator) ms).iceCandidatesQueue = []) := by
  have h := runEngine_ice ms (initEngine userId roomId isInitiator) [] rfl
    (fun _ => rfl) (fun h => absurd rfl h)
  simpa using h

/-- Witness for C2: two candidates arrive before the offer; after the offer
both are applied in arrival order and the queue is empty. -/
theorem c2_ice_candidate_ordering_witness :
    ((runEngine (initEngine 1 9 false) [.iceCandidate 4, .iceCandidate 6, .offer 7]).appliedCandidates
        ++ (runEngine (initEngine 1 9 false) [.iceCandidate 4, .iceCandidate 6, .offer 7]).iceCandidatesQueue
        = receivedCandidates [.iceCandidate 4, .iceCandidate 6, .offer 7])
    ∧ (runEngine (initEngine 1 9 false)
        [.iceCandidate 4, .iceCandidate 6, .offer 7]).iceCandidatesQueue = [] :=
  ⟨(c2_ice_candidate_ordering 1 9 false _).1,
    (c2_ice_candidate_ordering 1 9 false _).2.2 (by decide)⟩

/-- Claim C3 (counterexample evaluation): the broadcast handlers have no
phase guard, so delivering the identical Offer message a second time is not
ignored: the engine re-applies it as the remote description and publishes a
second Answer, a further state transition. -/
theorem c3_duplicate_offer_reanswered :
    deliver (deliver (initEngine 1 9 false) ⟨2, 9, .offer 5⟩) ⟨2, 9, .offer 5⟩
        ≠ deliver (initEngine 1 9 false) ⟨2, 9, .offer 5⟩
    ∧ (deliver (deliver (initEngine 1 9 false) ⟨2, 9, .offer 5⟩)
        ⟨2, 9, .offer 5⟩).published = [.answer 0, .answer 0]
    ∧ (deliver (initEngine 1 9 false) ⟨2, 9, .offer 5⟩).published = [.answer 0] := by
  decide

/-- Claim C4: when `getUserMedia` fails, the catch block of `initializeCall`
sets the status to disconnected; no local stream, peer connection, channel
or offer timer exists, so regardless of role and of any messages that would
have been delivered, the whole call attempt publishes no Offer, Answer or
candidate, and no retry occurs (the function runs once per mount). -/
theorem c4_capture_failure_disconnects (userId roomId : Nat)
    (isInitiator : Bool) (inbox : List SigMessage) :
    callAttempt false userId roomId isInitiator inbox
      = (⟨.disconnected, false, none, false⟩, []) := rfl

/-- Claim C6 (counterexample evaluation): on explicit hang-up, `endCall`
runs `cleanup()` and then `onEndCall()` unmounts the component, whose
effect teardown runs `cleanup()` again; since no ref is nulled, every
resource is released twice — tracks stopped, peer connection closed and
channel removed twice — not exactly once. -/
theorem c6_hangup_double_teardown :
    unmountCleanup (endCall mountedRefs) = ⟨true, true, true, 2, 2, 2⟩ := by
  decide

/-- Claim C7: an inbound broadcast changes the engine state only when its
`roomId` matches the session's room (the channel `webrtc-<roomId>` only
carries same-room traffic) and its `senderId` differs from the engine's own
identity; a self-echo or a message for another room leaves the engine
unchanged. -/
theorem c7_self_and_stale_filtered (e : Engine) (m : SigMessage)
    (h : m.senderId = e.userId ∨ m.roomId ≠ e.roomId) :
    deliver e m = e := by
  unfold deliver
  rcases h with h | h
  · split
    · simp [h]
    · rfl
  · simp [h]

/-- Witness for C7: a self-echoed offer and a wrong-room offer are both
dropped. -/
theorem c7_self_and_stale_filtered_witness :
    deliver (initEngine 1 9 false) ⟨1, 9, .offer 5⟩ = initEngine 1 9 false
    ∧ deliver (initEngine 1 9 false) ⟨2, 8, .offer 5⟩ = initEngine 1 9 false :=
  ⟨c7_self_and_stale_filtered _ _ (Or.inl rfl),
    c7_self_and_stale_filtered _ _ (Or.inr (by decide))⟩

/-- Helper: whenever a step records a scan match for `p`, the matched row
was in the waiting queue at that step and names a different participant. -/
theorem mstep_matched_sound (uname : Nat → String) (s s' : MState) (p : Nat)
    (e : Entry) (hst : MStep uname s s') (hold : s.phase p ≠ .matched e)
    (hnew : s'.phase p = .matched e) :
    e ∈ s.db.waiting_queue ∧ e.user_id ≠ p := by
  cases hst with
  | upsert q hq =>
      simp only [setPhase] at hnew
      split at hnew
      · simp at hnew
      · exact absurd hnew hold
  | scanHit q e2 hq hmem hne =>
      simp only [setPhase] at hnew
      split at hnew
      · rename_i hpq
        injection hnew with hEq
        subst hEq
        subst hpq
        exact ⟨hmem, hne⟩
      · exact absurd hnew hold
  | scanMiss q hq hscan =>
      simp only [setPhase] at hnew
      split at hnew
      · simp at hnew
      · exact absurd hnew hold
  | makeRoom q e2 hq =>
      simp only [setPhase] at hnew
      split at hnew
      · simp at hnew
      · exact absurd hnew hold
  | evictPair q e2 rid hq =>
      simp only [setPhase] at hnew
      split at hnew
      · simp at hnew
      · exact absurd hnew hold
  | adoptRoom q r hq hmem h2 h3 =>
      simp only [setPhase] at hnew
      split at hnew
      · simp at hnew
      · exact absurd hnew hold
  | retry q hq =>
      simp only [setPhase] at hnew
      split at hnew
      · simp at hnew
      · exact absurd hnew hold
  | cancel q => exact absurd hnew hold
  | deactivate rid => exact absurd hnew hold

/-- Helper: "every recorded match and every created room pairs two distinct
participants" is preserved by every step. -/
theorem mstep_preserves_distinct (uname : Nat → String) (s s' : MState)
    (hst : MStep uname s s')
    (hp : ∀ p e, s.phase p = .matched e → e.user_id ≠ p)
    (hr : ∀ r ∈ s.db.chat_rooms, r.user1_id ≠ r.user2_id) :
    (∀ p e, s'.phase p = .matched e → e.user_id ≠ p)
    ∧ (∀ r ∈ s'.db.chat_rooms, r.user1_id ≠ r.user2_id) := by
  cases hst with
  | upsert q hq =>
      refine ⟨?_, hr⟩
      intro p e hme
      simp only [setPhase] at hme
      split at hme
      · simp at hme
      · exact hp p e hme
  | scanHit q e2 hq hmem hne =>
      refine ⟨?_, hr⟩
      intro p e hme
      simp only [setPhase] at hme
      split at hme
      · rename_i hpq
        injection hme with hEq
        subst hEq
        subst hpq
        exact hne
      · exact hp p e hme
  | scanMiss q hq hscan =>
      refine ⟨?_, hr⟩
      intro p e hme
      simp only [setPhase] at hme
      split at hme
      · simp at hme
      · exact hp p e hme
  | makeRoom q e2 hq =>
      constructor
      · intro p e hme
        simp only [setPhase] at hme
        split at hme
        · simp at hme
        · exact hp p e hme
      · intro r hrm
        simp only [insertRoom] at hrm
        rcases List.mem_append.mp hrm with hIn | hIn
        · exact hr r hIn
        · have hr2 : r = ⟨s.nextRoom, q, e2.user_id, uname q, e2.username, true⟩ := by
            simpa using hIn
          subst hr2
          exact (hp q e2 hq).symm
  | evictPair q e2 rid hq =>
      refine ⟨?_, hr⟩
      intro p e hme
      simp only [setPhase] at hme
      split at hme
      · simp at hme
      · exact hp p e hme
  | adoptRoom q r hq hmem h2 h3 =>
      refine ⟨?_, hr⟩
      intro p e hme
      simp only [setPhase] at hme
      split at hme
      · simp at hme
      · exact hp p e hme
  | retry q hq =>
      refine ⟨?_, hr⟩
      intro p e hme
      simp only [setPhase] at hme
      split at hme
      · simp at hme
      · exact hp p e hme
  | cancel q => exact ⟨hp, hr⟩
  | deactivate rid =>
      refine ⟨hp, ?_⟩
      intro r hrm
      simp only [deactivateRoom, List.mem_map] at hrm
      obtain ⟨r0, hr0, hEq⟩ := hrm
      have h0 := hr r0 hr0
      split at hEq <;> subst hEq <;> exact h0

/-- Helper: the distinctness invariant holds in every reachable state. -/
theorem reaches_distinct (uname : Nat → String) (s : MState)
    (h : Reaches uname initMState s) :
    (∀ p e, s.phase p = .matched e → e.user_id ≠ p)
    ∧ (∀ r ∈ s.db.chat_rooms, r.user1_id ≠ r.user2_id) := by
  unfold Reaches at h
  induction h with
  | refl =>
      exact ⟨fun p e hme => by simp [initMState] at hme,
        fun r hrm => by simp [initMState] at hrm⟩
  | tail hab hbc ih => exact mstep_preserves_distinct uname _ _ hbc ih.1 ih.2

/-- Claim C5 (amended): in every reachable matchmaking state, every created
room pairs two distinct participant ids — never a self-pair, since the scan
excludes the caller's own `user_id` — and whenever a scan records a match the
matched row is in the waiting queue at the moment of that scan.  (Presence
at the later room-insert step is not guaranteed; see the counterexample.) -/
theorem c5_distinct_pairs_and_scan (uname : Nat → String) (s s' : MState)
    (p : Nat) (e : Entry) (hreach : Reaches uname initMState s) :
    (∀ r ∈ s.db.chat_rooms, r.user1_id ≠ r.user2_id)
    ∧ (MStep uname s s' → s.phase p ≠ .matched e → s'.phase p = .matched e →
        e ∈ s.db.waiting_queue ∧ e.user_id ≠ p) :=
  ⟨(reaches_distinct uname s hreach).2,
    fun hst hold hnew => mstep_matched_sound uname s s' p e hst hold hnew⟩

/-- Witness for C5 (amended): after the race-free trace (1 enqueues, 2
enqueues, 1 scans and sees 2, 1 inserts the room) the created room pairs
distinct participants. -/
theorem c5_distinct_pairs_and_scan_witness :
    (⟨0, 1, 2, "anon", "anon", true⟩ : Room).user1_id
      ≠ (⟨0, 1, 2, "anon", "anon", true⟩ : Room).user2_id := by
  have h1 : MStep uname0 initMState c5w1 := MStep.upsert initMState 1 rfl
  have h2 : MStep uname0 c5w1 c5w2 := MStep.upsert c5w1 2 (by decide)
  have h3 : MStep uname0 c5w2 c5w3 :=
    MStep.scanHit c5w2 1 ⟨2, "anon"⟩ (by decide) (by decide) (by decide)
  have h4 : MStep uname0 c5w3 c5w4 := MStep.makeRoom c5w3 1 ⟨2, "anon"⟩ (by decide)
  have hreach : Reaches uname0 initMState c5w4 :=
    .tail (.tail (.tail (.single h1) h2) h3) h4
  exact (c5_distinct_pairs_and_scan uname0 c5w4 c5w4 0 ⟨0, "x"⟩ hreach).1
    ⟨0, 1, 2, "anon", "anon", true⟩ (by decide)

/-- Claim C5 (counterexample): the interleaving `c5s1`–`c5s8` is reachable
and its final step inserts the room pairing (1, 2) although participant 1 —
the room's own `user1_id` — is no longer in the waiting queue: participant 3
had already paired with 1 and evicted both rows before 1's stale scan ran.
This refutes "both participants were present in the waiting queue at pairing
time; this holds for every interleaving of matchmaking queries". -/
theorem c5_pairing_without_presence :
    Reaches uname0 initMState c5s7
    ∧ MStep uname0 c5s7 c5s8
    ∧ (⟨1, 1, 2, "anon", "anon", true⟩ : Room) ∈ c5s8.db.chat_rooms
    ∧ (⟨1, 1, 2, "anon", "anon", true⟩ : Room) ∉ c5s7.db.chat_rooms
    ∧ (∀ x ∈ c5s7.db.waiting_queue, x.user_id ≠ 1) := by
  have h1 : MStep uname0 initMState c5s1 := MStep.upsert initMState 1 rfl
  have h2 : MStep uname0 c5s1 c5s2 := MStep.upsert c5s1 2 (by decide)
  have h3 : MStep uname0 c5s2 c5s3 := MStep.upsert c5s2 3 (by decide)
  have h4 : MStep uname0 c5s3 c5s4 :=
    MStep.scanHit c5s3 3 ⟨1, "anon"⟩ (by decide) (by decide) (by decide)
  have h5 : MStep uname0 c5s4 c5s5 := MStep.makeRoom c5s4 3 ⟨1, "anon"⟩ (by decide)
  have h6 : MStep uname0 c5s5 c5s6 :=
    MStep.evictPair c5s5 3 ⟨1, "anon"⟩ 0 (by decide)
  have h7 : MStep uname0 c5s6 c5s7 :=
    MStep.scanHit c5s6 1 ⟨2, "anon"⟩ (by decide) (by decide) (by decide)
  have h8 : MStep uname0 c5s7 c5s8 := MStep.makeRoom c5s7 1 ⟨2, "anon"⟩ (by decide)
  exact ⟨.tail (.tail (.tail (.tail (.tail (.tail (.single h1) h2) h3) h4) h5) h6) h7,
    h8, by decide, by decide, by decide⟩

/-- Claim C8: `stopSearching` clears the searching flag and deletes the
caller's queue row unconditionally — when no row exists the delete matches
nothing and the backend is unchanged (a no-op, not an error) — and the retry
timer callback, which re-enters `findMatch` only when the searching flag
still holds, performs no further attempt once the flag is cleared. -/
theorem c8_cancel_unconditional (db : DB) (u : Nat) (name : String)
    (fault : MatchFault) (rid : Nat) :
    (stopSearching db u).2 = false
    ∧ (∀ x ∈ (stopSearching db u).1.waiting_queue, x.user_id ≠ u)
    ∧ ((∀ x ∈ db.waiting_queue, x.user_id ≠ u) → (stopSearching db u).1 = db)
    ∧ retryCallback (stopSearching db u).2 db u name fault rid = none := by
  refine ⟨rfl, ?_, ?_, rfl⟩
  · intro x hx
    simp only [stopSearching, deleteWaiting, List.mem_filter] at hx
    simpa using hx.2
  · intro h
    cases db with
    | mk q rooms =>
        simp only [stopSearching, deleteWaiting]
        congr 1
        apply List.filter_eq_self.mpr
        intro a ha
        simpa using h a ha

/-- Witness for C8: cancelling with an empty waiting queue is a no-op and
suppresses the retry. -/
theorem c8_cancel_unconditional_witness :
    (stopSearching ⟨[], []⟩ 7).2 = false
    ∧ (stopSearching ⟨[], []⟩ 7).1 = ⟨[], []⟩
    ∧ retryCallback (stopSearching ⟨[], []⟩ 7).2 ⟨[], []⟩ 7 "anon" .noFault 0 = none :=
  ⟨(c8_cancel_unconditional ⟨[], []⟩ 7 "anon" .noFault 0).1,
    (c8_cancel_unconditional ⟨[], []⟩ 7 "anon" .noFault 0).2.2.1 (by decide),
    (c8_cancel_unconditional ⟨[], []⟩ 7 "anon" .noFault 0).2.2.2⟩

/-- Claim C9 (counterexample): a persistence error during the enqueue upsert
is caught by `findMatch`'s catch block, which only writes a console log and
clears the searching flag — no user-visible error is raised, refuting
"persistence errors during enqueue/pair are reported to the caller as
retryable failures". -/
theorem c9_error_swallowed :
    (findMatchAttempt ⟨[], []⟩ 1 "anon" .enqueueError 0).errorSurfaced = false
    ∧ (findMatchAttempt ⟨[], []⟩ 1 "anon" .enqueueError 0).searching = false := by
  decide

/-- Claim C9 (amended): each retry is a timer-scheduled re-invocation of
`findMatch` with a fixed 2000 ms backoff, guarded by the searching flag at
fire time, so a cleared flag suppresses every further attempt and no branch
re-runs without the delay; a persistence error ends the search immediately
(flag cleared, no retry scheduled) but is only logged, never surfaced. -/
theorem c9_retry_cadence (db : DB) (u : Nat) (name : String)
    (fault : MatchFault) (rid : Nat) :
    ((findMatchAttempt db u name fault rid).searching = true →
      (findMatchAttempt db u name fault rid).retryDelayMs = some 2000
      ∧ (findMatchAttempt db u name fault rid).chatRoom = none)
    ∧ ((findMatchAttempt db u name fault rid).retryDelayMs = none
        ∨ (findMatchAttempt db u name fault rid).retryDelayMs = some 2000)
    ∧ (findMatchAttempt db u name fault rid).errorSurfaced = false
    ∧ ((fault = .enqueueError ∨ fault = .searchError) →
      (findMatchAttempt db u name fault rid).searching = false
      ∧ (findMatchAttempt db u name fault rid).retryDelayMs = none)
    ∧ retryCallback false db u name fault rid = none := by
  cases fault with
  | noFault =>
      rcases hscan : scanQueue (upsertWaiting db u name) u with _ | e
      · rcases hroom : findRoomAsUser2 (upsertWaiting db u name) u with _ | r
        · simp [findMatchAttempt, retryCallback, hscan, hroom]
        · simp [findMatchAttempt, retryCallback, hscan, hroom]
      · simp [findMatchAttempt, retryCallback, hscan]
  | enqueueError => simp [findMatchAttempt, retryCallback]
  | searchError => simp [findMatchAttempt, retryCallback]
  | roomInsertError =>
      rcases hscan : scanQueue (upsertWaiting db u name) u with _ | e
      · rcases hroom : findRoomAsUser2 (upsertWaiting db u name) u with _ | r
        · simp [findMatchAttempt, retryCallback, hscan, hroom]
        · simp [findMatchAttempt, retryCallback, hscan, hroom]
      · simp [findMatchAttempt, retryCallback, hscan]

/-- Witness for C9 (amended): a search-step error ends the search, the
no-match branch's delay is the fixed 2000 ms, and a cleared flag suppresses
the retry. -/
theorem c9_retry_cadence_witness :
    (findMatchAttempt ⟨[], []⟩ 1 "anon" .noFault 0).retryDelayMs = some 2000
    ∧ (findMatchAttempt ⟨[], []⟩ 1 "anon" .searchError 0).searching = false
    ∧ retryCallback false ⟨[], []⟩ 1 "anon" .noFault 0 = none :=
  ⟨((c9_retry_cadence ⟨[], []⟩ 1 "anon" .noFault 0).1 (by decide)).1,
    ((c9_retry_cadence ⟨[], []⟩ 1 "anon" .searchError 0).2.2.2.1 (Or.inr rfl)).1,
    (c9_retry_cadence ⟨[], []⟩ 1 "anon" .noFault 0).2.2.2.2⟩

/-- Claim C10 (amended): a display name that already has a row in the users
table is silently adopted — the caller is logged in under the existing
record's id (set online), with no rejection; the rejection message is
surfaced only when the lookup finds no row but the insert of the new name
fails with the store's uniqueness-violation error (code 23505, a
concurrent-insert race), and this happens before any matchmaking. -/
theorem c10_login_conflict_behaviour (store : List UserRec) (username : String)
    (insertConflict : Bool) (freshId : Nat) :
    (∀ u, store.find? (fun v => v.username = username) = some u →
      (handleLogin store username insertConflict freshId).1 = .loggedIn u.id)
    ∧ (store.find? (fun v => v.username = username) = none → insertConflict = true →
      (handleLogin store username insertConflict freshId).1
        = .rejected "This username is already taken. Please choose another one.") := by
  constructor
  · intro u hu
    simp [handleLogin, hu]
  · intro hn hc
    simp [handleLogin, hn, hc]

/-- Witness for C10 (amended): logging in as "bob" while a "bob" row exists
adopts that row's id; a concurrent-insert conflict on a fresh name rejects. -/
theorem c10_login_conflict_behaviour_witness :
    (handleLogin [⟨1, "kim", true⟩, ⟨2, "bob", false⟩] "bob" false 9).1 = .loggedIn 2
    ∧ (handleLogin [] "kim" true 2).1
        = .rejected "This username is already taken. Please choose another one." :=
  ⟨(c10_login_conflict_behaviour [⟨1, "kim", true⟩, ⟨2, "bob", false⟩] "bob" false 9).1
      ⟨2, "bob", false⟩ (by decide),
    (c10_login_conflict_behaviour [] "kim" true 2).2 (by decide) rfl⟩

/-- Claim C10 (counterexample): with the display name "kim" already in
active use (`is_online = true`) in the users table, `handleLogin "kim"`
does not reject — it silently logs the caller in under the existing
record's id. -/
theorem c10_existing_name_silently_adopted :
    (handleLogin [⟨1, "kim", true⟩] "kim" false 2).1 = .loggedIn 1
    ∧ (handleLogin [⟨1, "kim", true⟩] "kim" false 2).2 = [⟨1, "kim", true⟩] := by
  decide

end VChat
